import Mathlib

/-!
Verification development for the libpostal address parser inference engine
(`src/address_parser.h`). The header declares the data model (token
classifiers, label enumeration, parse context, response) and the parse
pipeline entry points; the pipeline implementations live outside the
visible sources, so they are modelled here from the specification
(context builder, feature function, greedy averaged-perceptron decoding,
component grouping) and the claims are settled against that model.
-/

set_option autoImplicit false

namespace AddressParser

/-- Token types produced by the external tokenizer. Modelled from the spec:
the token-type enumeration (word, number, punctuation, separator classes
comma / hyphen / newline / semicolon / bracket / at-sign, and ignorable
classes invalid character / period / colon) is defined in the repository
outside the visible sources; the constructor names follow the constants
used by the macros in `address_parser.h`. -/
inductive TokenType where
  | WORD
  | ABBREVIATION
  | NUMERIC
  | WHITESPACE
  | COMMA
  | NEWLINE
  | HYPHEN
  | DASH
  | BREAKING_DASH
  | SEMICOLON
  | PUNCT_OPEN
  | PUNCT_CLOSE
  | AT_SIGN
  | INVALID_CHAR
  | PERIOD
  | COLON
  | OTHER
deriving DecidableEq, Repr

open TokenType

/-- A token: text span plus token type (`token_t`); the shallow embedding
stores the token text directly instead of offset and length. -/
structure token_t where
  text : String
  type : TokenType
deriving DecidableEq, Repr

/-- Structure `tokenized_string_t`: an ordered sequence of tokens. -/
structure tokenized_string_t where
  tokens : List token_t
deriving DecidableEq, Repr

/-- Embedding of the C macro `ADDRESS_PARSER_IS_SEPARATOR(token_type)`
from `address_parser.h`: true on comma, newline, the hyphen variants,
semicolon, open and close punctuation, and at-sign. -/
def ADDRESS_PARSER_IS_SEPARATOR (token_type : TokenType) : Bool :=
  token_type == COMMA || token_type == NEWLINE || token_type == HYPHEN ||
  token_type == DASH || token_type == BREAKING_DASH || token_type == SEMICOLON ||
  token_type == PUNCT_OPEN || token_type == PUNCT_CLOSE || token_type == AT_SIGN

/-- Embedding of the C macro `ADDRESS_PARSER_IS_IGNORABLE(token_type)` from
`address_parser.h`. The macro's parameter is `token_type`, but its first two
disjuncts are written `(token.type) == INVALID_CHAR || (token.type) == PERIOD`,
reading a variable `token` from the enclosing scope rather than the macro
argument; only the third disjunct tests the argument. The ambient `token.type`
is therefore a second input of the macro and is made explicit here. -/
def ADDRESS_PARSER_IS_IGNORABLE (ambient_token_type token_type : TokenType) : Bool :=
  ambient_token_type == INVALID_CHAR || ambient_token_type == PERIOD ||
  token_type == COLON

/-- The intended reading of `ADDRESS_PARSER_IS_IGNORABLE`, testing only the
macro argument, as the spec describes (ignorable classes: invalid character,
period, colon); used to state how the macro as written diverges from it. -/
def address_parser_is_ignorable_intended (token_type : TokenType) : Bool :=
  token_type == INVALID_CHAR || token_type == PERIOD || token_type == COLON

/-- Constant `ADDRESS_SEPARATOR_NONE` from `address_parser.h`. -/
def ADDRESS_SEPARATOR_NONE : Nat := 0

/-- Constant `ADDRESS_SEPARATOR_FIELD_INTERNAL` (1 << 0) from `address_parser.h`. -/
def ADDRESS_SEPARATOR_FIELD_INTERNAL : Nat := 1

/-- Constant `ADDRESS_SEPARATOR_FIELD` (1 << 1) from `address_parser.h`. -/
def ADDRESS_SEPARATOR_FIELD : Nat := 2

/-- Constant `SEPARATOR_LABEL` from `address_parser.h`. -/
def SEPARATOR_LABEL : String := "sep"

/-- Constant `FIELD_SEPARATOR_LABEL` from `address_parser.h`. -/
def FIELD_SEPARATOR_LABEL : String := "fsep"

/-- Constant `NULL_PHRASE_MEMBERSHIP` from `address_parser.h`. -/
def NULL_PHRASE_MEMBERSHIP : Int := -1

/-- The `address_parser_types` enum of `address_parser.h`, member 0. -/
def ADDRESS_PARSER_HOUSE : Nat := 0

/-- Enum member `ADDRESS_PARSER_HOUSE_NUMBER`. -/
def ADDRESS_PARSER_HOUSE_NUMBER : Nat := ADDRESS_PARSER_HOUSE + 1

/-- Enum member `ADDRESS_PARSER_ROAD`. -/
def ADDRESS_PARSER_ROAD : Nat := ADDRESS_PARSER_HOUSE_NUMBER + 1

/-- Enum member `ADDRESS_PARSER_SUBURB`. -/
def ADDRESS_PARSER_SUBURB : Nat := ADDRESS_PARSER_ROAD + 1

/-- Enum member `ADDRESS_PARSER_CITY_DISTRICT`. -/
def ADDRESS_PARSER_CITY_DISTRICT : Nat := ADDRESS_PARSER_SUBURB + 1

/-- Enum member `ADDRESS_PARSER_CITY`. -/
def ADDRESS_PARSER_CITY : Nat := ADDRESS_PARSER_CITY_DISTRICT + 1

/-- Enum member `ADDRESS_PARSER_STATE_DISTRICT`. -/
def ADDRESS_PARSER_STATE_DISTRICT : Nat := ADDRESS_PARSER_CITY + 1

/-- Enum member `ADDRESS_PARSER_STATE`. -/
def ADDRESS_PARSER_STATE : Nat := ADDRESS_PARSER_STATE_DISTRICT + 1

/-- Enum member `ADDRESS_PARSER_POSTAL_CODE`. -/
def ADDRESS_PARSER_POSTAL_CODE : Nat := ADDRESS_PARSER_STATE + 1

/-- Enum member `ADDRESS_PARSER_COUNTRY`. -/
def ADDRESS_PARSER_COUNTRY : Nat := ADDRESS_PARSER_POSTAL_CODE + 1

/-- Constant `NUM_ADDRESS_PARSER_TYPES`: the final member of the `address_parser_types`
enum, one past the last component type. -/
def NUM_ADDRESS_PARSER_TYPES : Nat := ADDRESS_PARSER_COUNTRY + 1

/-- The ten address component label names, in the enumeration order of the
`address_parser_types` enum. The names are the fixed label strings used by
the public interface ("house_number", "road", "city", "state", "postcode"
per the spec examples). -/
def address_parser_label_names : List String :=
  ["house", "house_number", "road", "suburb", "city_district",
   "city", "state_district", "state", "postcode", "country"]

/-- All labels the decoder may emit: the ten component labels plus the two
structural pseudo-labels `sep` (intra-field) and `fsep` (inter-field). -/
def all_address_parser_labels : List String :=
  address_parser_label_names ++ [SEPARATOR_LABEL, FIELD_SEPARATOR_LABEL]

/-- A phrase match (`phrase_t`): start token index, length in tokens, and
the value (type bitmask) stored in the trie for the matched phrase. -/
structure phrase_t where
  start : Nat
  len : Nat
  data : Nat
deriving DecidableEq, Repr

/-- Modelled from the spec: a phrase dictionary trie (the trie implementation
is outside the visible sources). Represented extensionally as the finite map
it denotes: normalized token sequences paired with their stored values;
lookup is longest match, so the representation order is immaterial. -/
def trie_t : Type := List (List String × Nat)

/-- Whether a trie key matches the front of a token sequence: each key token
equals the corresponding normalized token and none of the covered positions
is a hard separator (no phrase may span a hard separator). -/
def phrase_key_matches : List String → List (String × Bool) → Bool
  | [], _ => true
  | _ :: _, [] => false
  | k :: ks, (w, sep) :: rest => !sep && k == w && phrase_key_matches ks rest

/-- Keep the longer of a candidate match and the best match found so far
(the candidate wins only when strictly longer). -/
def longer_match (cand : Nat × Nat) : Option (Nat × Nat) → Option (Nat × Nat)
  | none => some cand
  | some (bl, bv) => if cand.1 > bl then some cand else some (bl, bv)

/-- Modelled from the spec: `search_longest_prefix` of the phrase trie —
returns the length (in tokens) and value of the longest nonempty phrase in
the trie matching the front of the token sequence, or none. -/
def trie_longest_match : trie_t → List (String × Bool) → Option (Nat × Nat)
  | [], _ => none
  | (k, v) :: rest, l =>
    if 1 ≤ k.length && phrase_key_matches k l then
      longer_match (k.length, v) (trie_longest_match rest l)
    else trie_longest_match rest l

/-- Modelled from the spec: the context builder's left-to-right phrase scan
for one trie. At each position not consumed by a previous match, attempt a
longest match; on a match of length L, record the phrase and assign its
index as the membership of all L covered positions; otherwise record the
sentinel `NULL_PHRASE_MEMBERSHIP`. `fuel` bounds the recursion (call sites
pass the list length), `i` is the current token position and `np` the
number of phrases found so far. -/
def scan_phrases_fuel (t : trie_t) :
    Nat → List (String × Bool) → Nat → Nat → List phrase_t × List Int
  | 0, _, _, _ => ([], [])
  | _ + 1, [], _, _ => ([], [])
  | fuel + 1, (w, sep) :: rest, i, np =>
    if sep then
      let r := scan_phrases_fuel t fuel rest (i + 1) np
      (r.1, NULL_PHRASE_MEMBERSHIP :: r.2)
    else
      match trie_longest_match t ((w, sep) :: rest) with
      | some (len, v) =>
        let r := scan_phrases_fuel t fuel (rest.drop (len - 1)) (i + len) (np + 1)
        (⟨i, len, v⟩ :: r.1, List.replicate len (Int.ofNat np) ++ r.2)
      | none =>
        let r := scan_phrases_fuel t fuel rest (i + 1) np
        (r.1, NULL_PHRASE_MEMBERSHIP :: r.2)

/-- One full scan of a trie over the normalized tokens with separator flags:
the list of phrase matches and the per-token membership list. -/
def scan_phrases (t : trie_t) (items : List (String × Bool)) :
    List phrase_t × List Int :=
  scan_phrases_fuel t items.length items 0 0

/-- Validity of one membership entry relative to a phrase list of the given
length: the entry is the sentinel `NULL_PHRASE_MEMBERSHIP` or a valid index
into the phrase list. -/
def membership_ok (nphrases : Nat) (m : Int) : Bool :=
  m == NULL_PHRASE_MEMBERSHIP || (decide (0 ≤ m) && decide (m < (nphrases : Int)))

/-- Modelled from the spec: per-token normalization (lower-cased, digit
classes collapsed to a uniform digit symbol, hyphens stripped, a final
period stripped), standing in for the excluded normalization collaborator
invoked with `ADDRESS_PARSER_NORMALIZE_TOKEN_OPTIONS`. -/
def address_parser_normalize_token_model (tok : token_t) : String :=
  let cs := tok.text.data.map (fun c => if c.isDigit then 'D' else c.toLower)
  let cs := cs.filter (fun c => c ≠ '-')
  let cs := if cs.getLast? = some '.' then cs.dropLast else cs
  String.mk cs

/-- Separator classification of one token: hard field separators (comma,
newline, semicolon) get `ADDRESS_SEPARATOR_FIELD`, the other separator
types `ADDRESS_SEPARATOR_FIELD_INTERNAL`, ordinary tokens
`ADDRESS_SEPARATOR_NONE`. -/
def address_parser_classify_separator (t : TokenType) : Nat :=
  if ADDRESS_PARSER_IS_SEPARATOR t then
    if t == COMMA || t == NEWLINE || t == SEMICOLON then ADDRESS_SEPARATOR_FIELD
    else ADDRESS_SEPARATOR_FIELD_INTERNAL
  else ADDRESS_SEPARATOR_NONE

/-- The averaged perceptron model (`averaged_perceptron_t`): modelled from
the spec as the feature-name to per-label weight mapping, represented as a
finite list of (feature, label, weight) triples, read-only at inference. -/
structure averaged_perceptron_t where
  weights : List (String × String × Int)
deriving DecidableEq, Repr

/-- The parser handle (`address_parser_t` of `address_parser.h`): the
averaged perceptron model, the vocabulary trie (normalized token to
vocabulary id), and the component phrase-types trie. The address-dictionary
and geodb tries consulted by the context builder are process-wide modules of
the repository outside the visible sources; modelled from the spec as two
further trie fields of the handle. -/
structure address_parser_t where
  model : averaged_perceptron_t
  vocab : List (String × Nat)
  phrase_types : trie_t
  address_dictionary : trie_t
  geodb : trie_t

/-- The per-parse context (`address_parser_context_t` of `address_parser.h`):
parallel per-token sequences (separator classification, normalized forms,
and one membership list per phrase trie, each entry an index into that
trie's phrase list or `NULL_PHRASE_MEMBERSHIP`). -/
structure address_parser_context_t where
  language : String
  country : String
  separators : List Nat
  normalized : List String
  address_dictionary_phrases : List phrase_t
  address_phrase_memberships : List Int
  geodb_phrases : List phrase_t
  geodb_phrase_memberships : List Int
  component_phrases : List phrase_t
  component_phrase_memberships : List Int
  tokenized_str : tokenized_string_t
deriving DecidableEq, Repr

/-- Modelled from the spec: `address_parser_context_fill` — computes the
normalized token forms, classifies separators, and runs the three
independent phrase scans (address dictionary, geodb, component phrase
types), populating the parallel sequences of the context. -/
def address_parser_context_fill (parser : address_parser_t)
    (ts : tokenized_string_t) (language country : String) :
    address_parser_context_t :=
  let norm := ts.tokens.map address_parser_normalize_token_model
  let sepflags := ts.tokens.map (fun tok => ADDRESS_PARSER_IS_SEPARATOR tok.type)
  let items := norm.zip sepflags
  let ad := scan_phrases parser.address_dictionary items
  let gd := scan_phrases parser.geodb items
  let cp := scan_phrases parser.phrase_types items
  { language := language
    country := country
    separators := ts.tokens.map (fun tok => address_parser_classify_separator tok.type)
    normalized := norm
    address_dictionary_phrases := ad.1
    address_phrase_memberships := ad.2
    geodb_phrases := gd.1
    geodb_phrase_memberships := gd.2
    component_phrases := cp.1
    component_phrase_memberships := cp.2
    tokenized_str := ts }

/-- Phrase-membership features for one trie at token position `i`: the
phrase id, the phrase type bitmask, and an interior-versus-boundary
indicator, when the position belongs to a match in that trie. -/
def phrase_membership_features (tag : String) (phrases : List phrase_t)
    (memberships : List Int) (i : Nat) : List String :=
  let m := memberships.getD i NULL_PHRASE_MEMBERSHIP
  if m < 0 then []
  else
    match phrases.get? m.toNat with
    | none => []
    | some ph =>
      [tag ++ " phrase id=" ++ toString m.toNat,
       tag ++ " phrase type=" ++ toString ph.data,
       if i == ph.start || i + 1 == ph.start + ph.len then tag ++ " phrase boundary"
       else tag ++ " phrase interior"]

/-- Modelled from the spec: `address_parser_features` — the pure feature
function mapping (context, position, previous label, previous-previous
label) to a set of named feature strings: word unigrams at offsets -1, 0,
+1; the vocabulary id of the current token; phrase-membership features from
each of the three tries; separator-adjacency flags; label-history features;
and first and last position indicators. -/
def address_parser_features (parser : address_parser_t)
    (ctx : address_parser_context_t) (i : Nat) (prev prev2 : String) :
    List String :=
  let n := ctx.normalized.length
  let w := ctx.normalized.getD i ""
  let unigrams :=
    ["word=" ++ w] ++
    (if 0 < i then ["prev word=" ++ ctx.normalized.getD (i - 1) ""] else []) ++
    (if i + 1 < n then ["next word=" ++ ctx.normalized.getD (i + 1) ""] else [])
  let vocab_feats :=
    match List.lookup w parser.vocab with
    | some vid => ["vocab=" ++ toString vid]
    | none => []
  let phrase_feats :=
    phrase_membership_features "ad" ctx.address_dictionary_phrases
      ctx.address_phrase_memberships i ++
    phrase_membership_features "geodb" ctx.geodb_phrases
      ctx.geodb_phrase_memberships i ++
    phrase_membership_features "component" ctx.component_phrases
      ctx.component_phrase_memberships i
  let sep_feats :=
    (if 0 < i ∧ ctx.separators.getD (i - 1) ADDRESS_SEPARATOR_NONE ≠ ADDRESS_SEPARATOR_NONE
     then ["prev sep"] else []) ++
    (if ctx.separators.getD (i + 1) ADDRESS_SEPARATOR_NONE ≠ ADDRESS_SEPARATOR_NONE ∧ i + 1 < n
     then ["next sep"] else [])
  let hist := ["prev label=" ++ prev, "prev2 label=" ++ prev2 ++ "+" ++ prev]
  let pos :=
    (if i == 0 then ["first token"] else []) ++
    (if i + 1 == n then ["last token"] else [])
  unigrams ++ vocab_feats ++ phrase_feats ++ sep_feats ++ hist ++ pos

/-- The feature function as called by the tagger: the C function receives
the context by pointer, so its embedding returns the context alongside the
feature set to make the frame condition (no mutation) expressible. -/
def address_parser_features_call (parser : address_parser_t)
    (ctx : address_parser_context_t) (i : Nat) (prev prev2 : String) :
    List String × address_parser_context_t :=
  (address_parser_features parser ctx i prev prev2, ctx)

/-- Modelled from the spec: the reserved start-of-sequence pseudo-label
seeding the label history at positions -1 and -2. -/
def START_LABEL : String := "START"

/-- Perceptron score of one candidate label: the sum of that label's weight
under every active feature. -/
def ap_score (weights : List (String × String × Int)) (feats : List String)
    (lab : String) : Int :=
  weights.foldl
    (fun acc wt => if feats.contains wt.1 && wt.2.1 == lab then acc + wt.2.2 else acc) 0

/-- Argmax accumulation over the remaining candidate labels: a strictly
greater score replaces the incumbent, so ties keep the earlier label in
enumeration order. -/
def ap_argmax_go (weights : List (String × String × Int)) (feats : List String) :
    String × Int → List String → String × Int
  | best, [] => best
  | best, lab :: rest =>
    let s := ap_score weights feats lab
    if best.2 < s then ap_argmax_go weights feats (lab, s) rest
    else ap_argmax_go weights feats best rest

/-- Modelled from the spec: one greedy decoding decision — the argmax label
over the fixed candidate enumeration (component labels in enum order, then
the two pseudo-labels), ties broken toward the earlier label. -/
def ap_predict (weights : List (String × String × Int)) (feats : List String) :
    String :=
  match all_address_parser_labels with
  | [] => SEPARATOR_LABEL
  | l0 :: rest => (ap_argmax_go weights feats (l0, ap_score weights feats l0) rest).1

/-- Modelled from the spec: greedy left-to-right decoding — at each position
call the feature function with the previously assigned labels and emit the
argmax label, which becomes `prev` for the next position. `k` counts the
remaining positions. -/
def ap_decode_go (parser : address_parser_t) (ctx : address_parser_context_t) :
    Nat → Nat → String → String → List String
  | 0, _, _, _ => []
  | k + 1, i, prev, prev2 =>
    let feats := (address_parser_features_call parser ctx i prev prev2).1
    let lab := ap_predict parser.model.weights feats
    lab :: ap_decode_go parser ctx k (i + 1) lab prev

/-- Greedy decoding over `n` token positions, label history seeded with the
start-of-sequence pseudo-label. -/
def ap_decode (parser : address_parser_t) (ctx : address_parser_context_t)
    (n : Nat) : List String :=
  ap_decode_go parser ctx n 0 START_LABEL START_LABEL

/-- Modelled from the spec: post-processing of the label sequence —
contiguous runs of the same component label merge into one component with
the separating text re-inserted; a field-separator label always closes the
open component; an intra-field separator token's text is held pending and
re-inserted if the run continues. `cur` is the open (text, label) component
and `pend` the pending separator text. -/
def group_components_go :
    List (token_t × String) → Option (String × String) → String →
    List (String × String)
  | [], none, _ => []
  | [], some cur, _ => [cur]
  | (tok, lab) :: rest, cur, pend =>
    if lab == FIELD_SEPARATOR_LABEL then
      (match cur with | none => [] | some c => [c]) ++ group_components_go rest none ""
    else if lab == SEPARATOR_LABEL then
      group_components_go rest cur (pend ++ tok.text)
    else
      match cur with
      | none => group_components_go rest (some (tok.text, lab)) ""
      | some (txt, l) =>
        if lab == l then
          group_components_go rest
            (some (txt ++ (if pend == "" then " " else pend) ++ tok.text, l)) ""
        else
          (txt, l) :: group_components_go rest (some (tok.text, lab)) ""

/-- Group the per-token labels into (component text, label) pairs. -/
def group_components (tokens : List token_t) (labels : List String) :
    List (String × String) :=
  group_components_go (tokens.zip labels) none ""

/-- Structure `address_parser_response_t` of `address_parser.h`: parallel component
and label arrays with their common count. -/
structure address_parser_response_t where
  num_components : Nat
  components : List String
  labels : List String
deriving DecidableEq, Repr

/-- Build a response from grouped (component text, label) pairs. -/
def address_parser_response_of (pairs : List (String × String)) :
    address_parser_response_t :=
  ⟨pairs.length, pairs.map Prod.fst, pairs.map Prod.snd⟩

/-- Modelled from the spec: the full parse pipeline on a tokenized input —
fill the context, decode greedily, group into components. Tokenization of
the raw address text is the external collaborator, so the embedding starts
from the token sequence. -/
def address_parser_parse_tokens (parser : address_parser_t)
    (ts : tokenized_string_t) (language country : String) :
    address_parser_response_t :=
  let ctx := address_parser_context_fill parser ts language country
  let labels := ap_decode parser ctx ts.tokens.length
  address_parser_response_of (group_components ts.tokens labels)

/-- Function `address_parser_parse`: the public entry point. Modelled from the spec:
the process-wide parser singleton is explicit state (`none` when no
successful setup happened or after teardown); when the parser is not ready
the call fails immediately with no partial work and no response. -/
def address_parser_parse (st : Option address_parser_t)
    (ts : tokenized_string_t) (language country : String) :
    Option address_parser_response_t :=
  match st with
  | none => none
  | some parser => some (address_parser_parse_tokens parser ts language country)

/-- Modelled from the spec: `address_parser_module_setup` installs the
loaded model when loading succeeded, otherwise leaves the module not
ready. -/
def address_parser_module_setup (load_result : Option address_parser_t) :
    Option address_parser_t :=
  load_result

/-- Modelled from the spec: `address_parser_module_teardown` releases the
model and invalidates further parsing until a new setup. -/
def address_parser_module_teardown (_st : Option address_parser_t) :
    Option address_parser_t :=
  none

/-- The `components` bitfield of the `address_parser_types_t` union: the low
16 bits of the packed 32-bit `value` (bitset of components). -/
def address_parser_types_t_components (value : Nat) : Nat :=
  value % 2 ^ 16

/-- The `most_common` bitfield of the `address_parser_types_t` union: the
high 16 bits of the packed 32-bit `value` (most common component as a short
integer enum value). -/
def address_parser_types_t_most_common (value : Nat) : Nat :=
  (value / 2 ^ 16) % 2 ^ 16

/-- The tokenized input of the spec's concrete scenario:
"123 Fake Street Brooklyn NY 12345". -/
def ex_tokens : tokenized_string_t :=
  ⟨[⟨"123", NUMERIC⟩, ⟨"Fake", WORD⟩, ⟨"Street", WORD⟩,
    ⟨"Brooklyn", WORD⟩, ⟨"NY", WORD⟩, ⟨"12345", NUMERIC⟩]⟩

/-- A concrete trained model for the spec's scenario: "street" is a
road-type phrase in the address dictionary (type bitmask 1), "ny" is a US
state abbreviation in the geodb trie (type bitmask 2), and the perceptron
weights associate the corresponding features with the expected labels. -/
def ex_model : address_parser_t :=
  { model := ⟨[("word=DDD", "house_number", 10),
               ("word=fake", "road", 10),
               ("ad phrase type=1", "road", 10),
               ("word=brooklyn", "city", 10),
               ("geodb phrase type=2", "state", 10),
               ("word=DDDDD", "postcode", 10)]⟩
    vocab := []
    phrase_types := []
    address_dictionary := ([(["street"], 1)] : List (List String × Nat))
    geodb := ([(["ny"], 2)] : List (List String × Nat)) }

/-- The context the context builder produces for the concrete scenario. -/
def ex_ctx : address_parser_context_t :=
  address_parser_context_fill ex_model ex_tokens "en" "us"

/-- The expected response of the concrete scenario. -/
def ex_response : address_parser_response_t :=
  ⟨5, ["123", "Fake Street", "Brooklyn", "NY", "12345"],
      ["house_number", "road", "city", "state", "postcode"]⟩

/-- C1: for the input token sequence ["123", "Fake", "Street", "Brooklyn",
"NY", "12345"] with language "en" and country "us", parsed against a model
trained to recognize "Street" as a road-type dictionary phrase and "NY" as
a US state abbreviation in the geodb trie, `address_parser_parse` returns
exactly the five ordered (component-text, label) pairs ("123",
"house_number"), ("Fake Street", "road"), ("Brooklyn", "city"),
("NY", "state"), ("12345", "postcode"). -/
theorem c1_concrete_scenario :
    address_parser_parse (some ex_model) ex_tokens "en" "us" = some ex_response ∧
    ex_response.components.zip ex_response.labels =
      [("123", "house_number"), ("Fake Street", "road"), ("Brooklyn", "city"),
       ("NY", "state"), ("12345", "postcode")] := by
  decide

/-- C2: if the model failed to load (no successful setup, `none` state) or
after `address_parser_module_teardown`, every call to
`address_parser_parse` fails immediately with the not-ready result `none`:
no parse work is performed and no response is produced. -/
theorem c2_not_ready_fails_fast (st : Option address_parser_t)
    (ts : tokenized_string_t) (language country : String) :
    address_parser_parse none ts language country = none ∧
    address_parser_parse (address_parser_module_setup none) ts language country = none ∧
    address_parser_parse (address_parser_module_teardown st) ts language country = none :=
  ⟨rfl, rfl, rfl⟩

/-- C3: `address_parser_parse` is deterministic — for a fixed loaded model
and fixed (tokenized address, language, country) input, two calls return
identical responses: same `num_components`, same component strings, same
label strings, in the same order. -/
theorem c3_parse_deterministic (st : Option address_parser_t)
    (ts : tokenized_string_t) (language country : String)
    (r1 r2 : address_parser_response_t)
    (h1 : address_parser_parse st ts language country = some r1)
    (h2 : address_parser_parse st ts language country = some r2) :
    r1.num_components = r2.num_components ∧
    r1.components = r2.components ∧ r1.labels = r2.labels := by
  have h := h1.symm.trans h2
  have h' : r1 = r2 := Option.some_injective _ h
  exact ⟨by rw [h'], by rw [h'], by rw [h']⟩

/-- Witness for C3 at the concrete scenario input. -/
theorem c3_parse_deterministic_witness :
    address_parser_parse (some ex_model) ex_tokens "en" "us" = some ex_response ∧
    (ex_response.num_components = ex_response.num_components ∧
     ex_response.components = ex_response.components ∧
     ex_response.labels = ex_response.labels) :=
  ⟨by decide,
   c3_parse_deterministic (some ex_model) ex_tokens "en" "us" ex_response ex_response
     (by decide) (by decide)⟩

/-- C5 (code bug): the claim says `ADDRESS_PARSER_IS_IGNORABLE(t)` holds
exactly for INVALID_CHAR, PERIOD and COLON for any token type `t` passed as
its argument, but the macro as written reads `token.type` from the call
site for the INVALID_CHAR and PERIOD tests instead of its argument: with an
ambient token of type WORD the macro rejects PERIOD, and with an ambient
token of type INVALID_CHAR it accepts COMMA, both contradicting the
intended argument-only reading. -/
theorem c5_ignorable_macro_reads_ambient :
    ADDRESS_PARSER_IS_IGNORABLE WORD PERIOD = false ∧
    address_parser_is_ignorable_intended PERIOD = true ∧
    ADDRESS_PARSER_IS_IGNORABLE INVALID_CHAR COMMA = true ∧
    address_parser_is_ignorable_intended COMMA = false ∧
    (∀ ambient t : TokenType,
      ADDRESS_PARSER_IS_IGNORABLE ambient t =
        (ambient == INVALID_CHAR || ambient == PERIOD || t == COLON)) := by
  refine ⟨rfl, rfl, rfl, rfl, fun ambient t => rfl⟩

/-- C6: `ADDRESS_PARSER_IS_SEPARATOR t` holds exactly when `t` is comma,
newline, one of the hyphen variants (HYPHEN, DASH, BREAKING_DASH),
semicolon, an opening or closing bracket, or at-sign, and for no other
token type. -/
theorem c6_separator_iff (t : TokenType) :
    ADDRESS_PARSER_IS_SEPARATOR t = true ↔
      t ∈ ([COMMA, NEWLINE, HYPHEN, DASH, BREAKING_DASH, SEMICOLON,
            PUNCT_OPEN, PUNCT_CLOSE, AT_SIGN] : List TokenType) := by
  cases t <;> simp [ADDRESS_PARSER_IS_SEPARATOR]

/-- Witness for C6: COMMA is a separator and WORD is not. -/
theorem c6_separator_iff_witness :
    ADDRESS_PARSER_IS_SEPARATOR COMMA = true ∧
    ADDRESS_PARSER_IS_SEPARATOR WORD ≠ true :=
  ⟨(c6_separator_iff COMMA).mpr (by decide),
   fun h => by simpa using (c6_separator_iff WORD).mp h⟩

/-- C7: the feature function never mutates the context it is given and is
deterministic — for identical (context, position, previous label,
previous-previous label) inputs it produces the identical feature set. -/
theorem c7_features_pure (parser : address_parser_t)
    (ctx ctx2 : address_parser_context_t) (i : Nat) (prev prev2 : String)
    (h : ctx = ctx2) :
    (address_parser_features_call parser ctx i prev prev2).2 = ctx ∧
    (address_parser_features_call parser ctx i prev prev2).1 =
      (address_parser_features_call parser ctx2 i prev prev2).1 := by
  subst h
  exact ⟨rfl, rfl⟩

/-- Witness for C7 at the concrete scenario context. -/
theorem c7_features_pure_witness :
    (address_parser_features_call ex_model ex_ctx 0 START_LABEL START_LABEL).2 = ex_ctx ∧
    (address_parser_features_call ex_model ex_ctx 0 START_LABEL START_LABEL).1 =
      (address_parser_features_call ex_model ex_ctx 0 START_LABEL START_LABEL).1 :=
  c7_features_pure ex_model ex_ctx ex_ctx 0 START_LABEL START_LABEL rfl

/-- C9: the packed 32-bit `address_parser_types_t` value decomposes into
the 16-bit `components` bitmask (low half) and 16-bit `most_common` field
(high half): `components = v mod 2^16`, `most_common = v / 2^16`, both
fields fit in 16 bits, and `v = components + 2^16 * most_common`. -/
theorem c9_types_t_decomposition (v : Nat) (h : v < 2 ^ 32) :
    address_parser_types_t_components v = v % 2 ^ 16 ∧
    address_parser_types_t_most_common v = v / 2 ^ 16 ∧
    address_parser_types_t_components v < 2 ^ 16 ∧
    address_parser_types_t_most_common v < 2 ^ 16 ∧
    v = address_parser_types_t_components v +
        2 ^ 16 * address_parser_types_t_most_common v := by
  unfold address_parser_types_t_components address_parser_types_t_most_common
  have e16 : (2 : Nat) ^ 16 = 65536 := by norm_num
  have e32 : (2 : Nat) ^ 32 = 4294967296 := by norm_num
  rw [e16]
  rw [e32] at h
  omega

/-- Witness for C9 at the packed value 3 * 2^16 + 10. -/
theorem c9_types_t_decomposition_witness :
    (196618 : Nat) < 2 ^ 32 ∧
    (address_parser_types_t_components 196618 = 196618 % 2 ^ 16 ∧
     address_parser_types_t_most_common 196618 = 196618 / 2 ^ 16 ∧
     address_parser_types_t_components 196618 < 2 ^ 16 ∧
     address_parser_types_t_most_common 196618 < 2 ^ 16 ∧
     196618 = address_parser_types_t_components 196618 +
       2 ^ 16 * address_parser_types_t_most_common 196618) :=
  ⟨by norm_num, c9_types_t_decomposition 196618 (by norm_num)⟩

/-- Splitting a true Boolean conjunction into its two conjuncts. -/
theorem and_true_split {a b : Bool} (h : (a && b) = true) :
    a = true ∧ b = true := by
  simp_all

/-- A matching trie key is no longer than the scanned token sequence. -/
theorem phrase_key_matches_length_le :
    ∀ (k : List String) (l : List (String × Bool)),
      phrase_key_matches k l = true → k.length ≤ l.length
  | [], l, _ => Nat.zero_le _
  | _ :: _, [], h => by simp [phrase_key_matches] at h
  | k :: ks, (w, sep) :: rest, h => by
    have h' : ((!sep && (k == w)) && phrase_key_matches ks rest) = true := h
    obtain ⟨-, hp⟩ := and_true_split h'
    exact Nat.succ_le_succ (phrase_key_matches_length_le ks rest hp)

/-- A successful `longer_match` result is the candidate or the previous
best. -/
theorem longer_match_bounds (cand : Nat × Nat) (o : Option (Nat × Nat))
    (len v : Nat) (h : longer_match cand o = some (len, v)) :
    len = cand.1 ∨ o = some (len, v) := by
  cases o with
  | none =>
    simp only [longer_match, Option.some.injEq] at h
    exact Or.inl (congrArg Prod.fst h).symm
  | some b =>
    obtain ⟨bl, bv⟩ := b
    simp only [longer_match] at h
    by_cases hgt : cand.1 > bl
    · rw [if_pos hgt] at h
      simp only [Option.some.injEq] at h
      exact Or.inl (congrArg Prod.fst h).symm
    · rw [if_neg hgt] at h
      exact Or.inr h

/-- A longest match returned by the trie covers at least one token and no
more tokens than remain. -/
theorem trie_longest_match_bounds :
    ∀ (t : trie_t) (l : List (String × Bool)) (len v : Nat),
      trie_longest_match t l = some (len, v) → 1 ≤ len ∧ len ≤ l.length
  | [], l, len, v, h => by simp [trie_longest_match] at h
  | (k, kv) :: rest, l, len, v, h => by
    simp only [trie_longest_match] at h
    by_cases hc : (decide (1 ≤ k.length) && phrase_key_matches k l) = true
    · rw [if_pos hc] at h
      obtain ⟨h1, h2⟩ := and_true_split hc
      have hk1 : 1 ≤ k.length := of_decide_eq_true h1
      have hkl : k.length ≤ l.length := phrase_key_matches_length_le k l h2
      rcases longer_match_bounds (k.length, kv) (trie_longest_match rest l) len v h
        with hlen | hrec
      · have hlen' : len = k.length := hlen
        constructor <;> omega
      · exact trie_longest_match_bounds rest l len v hrec
    · rw [if_neg hc] at h
      exact trie_longest_match_bounds rest l len v h

/-- Unfolding of the phrase scan at a separator token. -/
theorem scan_phrases_fuel_eq_sep (t : trie_t) (fuel : Nat) (w : String)
    (rest : List (String × Bool)) (i np : Nat) :
    scan_phrases_fuel t (fuel + 1) ((w, true) :: rest) i np =
      ((scan_phrases_fuel t fuel rest (i + 1) np).1,
       NULL_PHRASE_MEMBERSHIP :: (scan_phrases_fuel t fuel rest (i + 1) np).2) := by
  simp [scan_phrases_fuel]

/-- Unfolding of the phrase scan at an ordinary token with no match. -/
theorem scan_phrases_fuel_eq_none (t : trie_t) (fuel : Nat) (w : String)
    (rest : List (String × Bool)) (i np : Nat)
    (hm : trie_longest_match t ((w, false) :: rest) = none) :
    scan_phrases_fuel t (fuel + 1) ((w, false) :: rest) i np =
      ((scan_phrases_fuel t fuel rest (i + 1) np).1,
       NULL_PHRASE_MEMBERSHIP :: (scan_phrases_fuel t fuel rest (i + 1) np).2) := by
  simp only [scan_phrases_fuel, Bool.false_eq_true, if_false]
  rw [hm]

/-- Unfolding of the phrase scan at an ordinary token with a longest match
of length `len` and value `v`. -/
theorem scan_phrases_fuel_eq_some (t : trie_t) (fuel : Nat) (w : String)
    (rest : List (String × Bool)) (i np len v : Nat)
    (hm : trie_longest_match t ((w, false) :: rest) = some (len, v)) :
    scan_phrases_fuel t (fuel + 1) ((w, false) :: rest) i np =
      (⟨i, len, v⟩ :: (scan_phrases_fuel t fuel (rest.drop (len - 1)) (i + len) (np + 1)).1,
       List.replicate len (Int.ofNat np) ++
         (scan_phrases_fuel t fuel (rest.drop (len - 1)) (i + len) (np + 1)).2) := by
  simp only [scan_phrases_fuel, Bool.false_eq_true, if_false]
  rw [hm]

/-- With enough fuel, the phrase scan produces one membership entry per
token. -/
theorem scan_phrases_fuel_snd_length (t : trie_t) :
    ∀ (fuel : Nat) (l : List (String × Bool)) (i np : Nat),
      l.length ≤ fuel → (scan_phrases_fuel t fuel l i np).2.length = l.length := by
  intro fuel
  induction fuel with
  | zero =>
    intro l i np h
    have : l = [] := List.eq_nil_of_length_eq_zero (Nat.le_zero.mp h)
    subst this
    simp [scan_phrases_fuel]
  | succ fuel ih =>
    intro l i np h
    cases l with
    | nil => simp [scan_phrases_fuel]
    | cons hd rest =>
      obtain ⟨w, sep⟩ := hd
      have hrest : rest.length ≤ fuel := by
        simpa using Nat.le_of_succ_le_succ h
      cases sep with
      | true =>
        rw [scan_phrases_fuel_eq_sep]
        simpa using ih rest (i + 1) np hrest
      | false =>
        cases hm : trie_longest_match t ((w, false) :: rest) with
        | none =>
          rw [scan_phrases_fuel_eq_none t fuel w rest i np hm]
          simpa using ih rest (i + 1) np hrest
        | some lv =>
          obtain ⟨len, v⟩ := lv
          rw [scan_phrases_fuel_eq_some t fuel w rest i np len v hm]
          have hb := trie_longest_match_bounds t ((w, false) :: rest) len v hm
          have hdrop : (rest.drop (len - 1)).length ≤ fuel := by
            rw [List.length_drop]
            exact Nat.le_trans (Nat.sub_le _ _) hrest
          have hrec := ih (rest.drop (len - 1)) (i + len) (np + 1) hdrop
          simp only [List.length_cons, List.length_drop] at hb hrec ⊢
          simp only [List.length_append, List.length_replicate, hrec, List.length_drop]
          omega

/-- Every membership entry the phrase scan produces is the sentinel or a
valid index into the produced phrase list (indices counted from `np`). -/
theorem scan_phrases_fuel_mem_ok (t : trie_t) :
    ∀ (fuel : Nat) (l : List (String × Bool)) (i np : Nat) (m : Int),
      m ∈ (scan_phrases_fuel t fuel l i np).2 →
      m = NULL_PHRASE_MEMBERSHIP ∨
        ∃ j : Nat, m = Int.ofNat j ∧ np ≤ j ∧
          j < np + (scan_phrases_fuel t fuel l i np).1.length := by
  intro fuel
  induction fuel with
  | zero => intro l i np m hm; simp [scan_phrases_fuel] at hm
  | succ fuel ih =>
    intro l i np m hm
    cases l with
    | nil => simp [scan_phrases_fuel] at hm
    | cons hd rest =>
      obtain ⟨w, sep⟩ := hd
      cases sep with
      | true =>
        rw [scan_phrases_fuel_eq_sep] at hm ⊢
        rcases List.mem_cons.mp hm with h | h
        · exact Or.inl h
        · rcases ih rest (i + 1) np m h with h2 | ⟨j, hj, h0, hj2⟩
          · exact Or.inl h2
          · exact Or.inr ⟨j, hj, h0, hj2⟩
      | false =>
        cases hm2 : trie_longest_match t ((w, false) :: rest) with
        | none =>
          rw [scan_phrases_fuel_eq_none t fuel w rest i np hm2] at hm ⊢
          rcases List.mem_cons.mp hm with h | h
          · exact Or.inl h
          · rcases ih rest (i + 1) np m h with h2 | ⟨j, hj, h0, hj2⟩
            · exact Or.inl h2
            · exact Or.inr ⟨j, hj, h0, hj2⟩
        | some lv =>
          obtain ⟨len, v⟩ := lv
          rw [scan_phrases_fuel_eq_some t fuel w rest i np len v hm2] at hm ⊢
          simp only [List.length_cons] at hm ⊢
          rcases List.mem_append.mp hm with h | h
          · have := List.eq_of_mem_replicate h
            exact Or.inr ⟨np, this, Nat.le_refl np, by omega⟩
          · rcases ih (rest.drop (len - 1)) (i + len) (np + 1) m h with h2 | ⟨j, hj, h0, hj2⟩
            · exact Or.inl h2
            · exact Or.inr ⟨j, hj, by omega, by omega⟩

/-- The full phrase scan produces exactly one membership entry per token. -/
theorem scan_phrases_snd_length (t : trie_t) (items : List (String × Bool)) :
    (scan_phrases t items).2.length = items.length :=
  scan_phrases_fuel_snd_length t items.length items 0 0 (Nat.le_refl _)

/-- Every membership entry of the full phrase scan is the sentinel or a
valid index into the scan's phrase list. -/
theorem scan_phrases_all_ok (t : trie_t) (items : List (String × Bool)) :
    (scan_phrases t items).2.all (membership_ok (scan_phrases t items).1.length) = true := by
  rw [List.all_eq_true]
  intro m hm
  rcases scan_phrases_fuel_mem_ok t items.length items 0 0 m hm with h | ⟨j, hj, -, hj2⟩
  · simp [membership_ok, h]
  · subst hj
    simp only [membership_ok, Bool.or_eq_true, Bool.and_eq_true, decide_eq_true_eq]
    right
    refine ⟨Int.ofNat_nonneg j, ?_⟩
    simp only [scan_phrases, Int.ofNat_eq_coe]
    simp only [Nat.zero_add] at hj2
    omega

/-- C4: after `address_parser_context_fill` returns, all parallel per-token
sequences in the context (separators, normalized, and the three phrase
membership sequences) have identical length equal to the number of tokens
of the tokenized string, and every entry of each membership sequence is
either a valid index into that trie's phrase list or the sentinel
`NULL_PHRASE_MEMBERSHIP` (-1). -/
theorem c4_context_parallel (parser : address_parser_t) (ts : tokenized_string_t)
    (language country : String) :
    (address_parser_context_fill parser ts language country).separators.length
      = ts.tokens.length ∧
    (address_parser_context_fill parser ts language country).normalized.length
      = ts.tokens.length ∧
    (address_parser_context_fill parser ts language country).address_phrase_memberships.length
      = ts.tokens.length ∧
    (address_parser_context_fill parser ts language country).geodb_phrase_memberships.length
      = ts.tokens.length ∧
    (address_parser_context_fill parser ts language country).component_phrase_memberships.length
      = ts.tokens.length ∧
    (address_parser_context_fill parser ts language country).address_phrase_memberships.all
      (membership_ok
        (address_parser_context_fill parser ts language country).address_dictionary_phrases.length)
      = true ∧
    (address_parser_context_fill parser ts language country).geodb_phrase_memberships.all
      (membership_ok
        (address_parser_context_fill parser ts language country).geodb_phrases.length)
      = true ∧
    (address_parser_context_fill parser ts language country).component_phrase_memberships.all
      (membership_ok
        (address_parser_context_fill parser ts language country).component_phrases.length)
      = true := by
  have hzip : ((ts.tokens.map address_parser_normalize_token_model).zip
      (ts.tokens.map fun tok => ADDRESS_PARSER_IS_SEPARATOR tok.type)).length
      = ts.tokens.length := by
    simp
  refine ⟨by simp [address_parser_context_fill], by simp [address_parser_context_fill],
    ?_, ?_, ?_, ?_, ?_, ?_⟩
  · simpa [address_parser_context_fill] using
      (scan_phrases_snd_length parser.address_dictionary _).trans hzip
  · simpa [address_parser_context_fill] using
      (scan_phrases_snd_length parser.geodb _).trans hzip
  · simpa [address_parser_context_fill] using
      (scan_phrases_snd_length parser.phrase_types _).trans hzip
  · simpa [address_parser_context_fill] using
      scan_phrases_all_ok parser.address_dictionary
        ((ts.tokens.map address_parser_normalize_token_model).zip
          (ts.tokens.map fun tok => ADDRESS_PARSER_IS_SEPARATOR tok.type))
  · simpa [address_parser_context_fill] using
      scan_phrases_all_ok parser.geodb
        ((ts.tokens.map address_parser_normalize_token_model).zip
          (ts.tokens.map fun tok => ADDRESS_PARSER_IS_SEPARATOR tok.type))
  · simpa [address_parser_context_fill] using
      scan_phrases_all_ok parser.phrase_types
        ((ts.tokens.map address_parser_normalize_token_model).zip
          (ts.tokens.map fun tok => ADDRESS_PARSER_IS_SEPARATOR tok.type))

/-- The argmax accumulation returns the incumbent or one of the scanned
candidates. -/
theorem ap_argmax_go_mem (weights : List (String × String × Int)) (feats : List String) :
    ∀ (ls : List String) (best : String × Int),
      (ap_argmax_go weights feats best ls).1 = best.1 ∨
      (ap_argmax_go weights feats best ls).1 ∈ ls
  | [], best => Or.inl rfl
  | lab :: rest, best => by
    simp only [ap_argmax_go]
    by_cases hlt : best.2 < ap_score weights feats lab
    · rw [if_pos hlt]
      rcases ap_argmax_go_mem weights feats rest (lab, ap_score weights feats lab)
        with h | h
      · exact Or.inr (by rw [h]; exact List.mem_cons_self _ _)
      · exact Or.inr (List.mem_cons_of_mem lab h)
    · rw [if_neg hlt]
      rcases ap_argmax_go_mem weights feats rest best with h | h
      · exact Or.inl h
      · exact Or.inr (List.mem_cons_of_mem lab h)

/-- Every label the decoder selects belongs to the fixed candidate
enumeration. -/
theorem ap_predict_mem (weights : List (String × String × Int)) (feats : List String) :
    ap_predict weights feats ∈ all_address_parser_labels := by
  unfold ap_predict
  split
  · next heq => exact absurd heq (by decide)
  · next l0 rest heq =>
    rcases ap_argmax_go_mem weights feats rest (l0, ap_score weights feats l0)
      with h | h
    · rw [h, heq]
      exact List.mem_cons_self _ _
    · rw [heq]
      exact List.mem_cons_of_mem _ h

/-- Every label the greedy decoder emits belongs to the fixed label set. -/
theorem ap_decode_go_mem (parser : address_parser_t) (ctx : address_parser_context_t) :
    ∀ (k i : Nat) (prev prev2 lab : String),
      lab ∈ ap_decode_go parser ctx k i prev prev2 →
      lab ∈ all_address_parser_labels
  | 0, i, prev, prev2, lab, h => by simp [ap_decode_go] at h
  | k + 1, i, prev, prev2, lab, h => by
    simp only [ap_decode_go] at h
    rcases List.mem_cons.mp h with h | h
    · rw [h]
      exact ap_predict_mem _ _
    · exact ap_decode_go_mem parser ctx k (i + 1) _ _ lab h

/-- Every label of a grouped component comes from the per-token label list
or from the open component carried in. -/
theorem group_components_go_snd_mem :
    ∀ (l : List (token_t × String)) (cur : Option (String × String)) (pend : String)
      (pr : String × String), pr ∈ group_components_go l cur pend →
      pr.2 ∈ l.map Prod.snd ∨ (∃ txt, cur = some (txt, pr.2))
  | [], none, pend, pr, h => by simp [group_components_go] at h
  | [], some c, pend, pr, h => by
    simp only [group_components_go, List.mem_singleton] at h
    exact Or.inr ⟨c.1, by simp [h]⟩
  | (tok, lab) :: rest, cur, pend, pr, h => by
    simp only [group_components_go] at h
    simp only [List.map_cons]
    by_cases hf : (lab == FIELD_SEPARATOR_LABEL) = true
    · rw [if_pos hf] at h
      rcases List.mem_append.mp h with h | h
      · cases cur with
        | none => simp at h
        | some c =>
          dsimp only at h
          simp only [List.mem_singleton] at h
          exact Or.inr ⟨c.1, by simp [h]⟩
      · rcases group_components_go_snd_mem rest none "" pr h with h2 | h2
        · exact Or.inl (List.mem_cons_of_mem _ h2)
        · rcases h2 with ⟨txt, ht⟩
          simp at ht
    · rw [if_neg hf] at h
      by_cases hs : (lab == SEPARATOR_LABEL) = true
      · rw [if_pos hs] at h
        rcases group_components_go_snd_mem rest cur (pend ++ tok.text) pr h with h2 | h2
        · exact Or.inl (List.mem_cons_of_mem _ h2)
        · exact Or.inr h2
      · rw [if_neg hs] at h
        cases cur with
        | none =>
          dsimp only at h
          rcases group_components_go_snd_mem rest (some (tok.text, lab)) "" pr h
            with h2 | h2
          · exact Or.inl (List.mem_cons_of_mem _ h2)
          · rcases h2 with ⟨txt, ht⟩
            simp only [Option.some.injEq, Prod.mk.injEq] at ht
            exact Or.inl (by simp [← ht.2])
        | some c =>
          obtain ⟨txt, lcur⟩ := c
          dsimp only at h
          by_cases he : (lab == lcur) = true
          · rw [if_pos he] at h
            rcases group_components_go_snd_mem rest
              (some (txt ++ (if pend == "" then " " else pend) ++ tok.text, lcur)) "" pr h
              with h2 | h2
            · exact Or.inl (List.mem_cons_of_mem _ h2)
            · rcases h2 with ⟨t2, ht⟩
              simp only [Option.some.injEq, Prod.mk.injEq] at ht
              exact Or.inr ⟨txt, by rw [ht.2]⟩
          · rw [if_neg he] at h
            rcases List.mem_cons.mp h with h | h
            · exact Or.inr ⟨txt, by simp [h]⟩
            · rcases group_components_go_snd_mem rest (some (tok.text, lab)) "" pr h
                with h2 | h2
              · exact Or.inl (List.mem_cons_of_mem _ h2)
              · rcases h2 with ⟨t2, ht⟩
                simp only [Option.some.injEq, Prod.mk.injEq] at ht
                exact Or.inl (by simp [← ht.2])

/-- Every label name in a parse response belongs to the fixed label set. -/
theorem address_parser_parse_tokens_labels_mem (parser : address_parser_t)
    (ts : tokenized_string_t) (language country : String) (lab : String)
    (h : lab ∈ (address_parser_parse_tokens parser ts language country).labels) :
    lab ∈ all_address_parser_labels := by
  simp only [address_parser_parse_tokens, address_parser_response_of,
    group_components] at h
  rcases List.mem_map.mp h with ⟨pr, hpr, hsnd⟩
  rcases group_components_go_snd_mem _ none "" pr hpr with h2 | h2
  · rcases List.mem_map.mp h2 with ⟨q, hq, hq2⟩
    obtain ⟨qtok, qlab⟩ := q
    have hmem := (List.of_mem_zip hq).2
    rw [← hsnd, ← hq2]
    exact ap_decode_go_mem parser _ ts.tokens.length 0 START_LABEL START_LABEL qlab hmem
  · rcases h2 with ⟨txt, ht⟩
    simp at ht

/-- C8: the label set is a fixed closed enumeration of exactly ten address
component types (so `NUM_ADDRESS_PARSER_TYPES` equals 10) plus exactly the
two structural pseudo-labels `sep` and `fsep`; every label emitted by the
decoder and every label name in a parse response belongs to this set. -/
theorem c8_label_set_closed :
    NUM_ADDRESS_PARSER_TYPES = 10 ∧
    address_parser_label_names.length = NUM_ADDRESS_PARSER_TYPES ∧
    all_address_parser_labels =
      ["house", "house_number", "road", "suburb", "city_district", "city",
       "state_district", "state", "postcode", "country", "sep", "fsep"] ∧
    (∀ (parser : address_parser_t) (ctx : address_parser_context_t) (n : Nat)
       (lab : String),
       lab ∈ ap_decode parser ctx n → lab ∈ all_address_parser_labels) ∧
    (∀ (parser : address_parser_t) (ts : tokenized_string_t)
       (language country lab : String),
       lab ∈ (address_parser_parse_tokens parser ts language country).labels →
       lab ∈ all_address_parser_labels) := by
  refine ⟨by decide, by decide, by decide, ?_, ?_⟩
  · intro parser ctx n lab h
    exact ap_decode_go_mem parser ctx n 0 _ _ lab h
  · intro parser ts language country lab h
    exact address_parser_parse_tokens_labels_mem parser ts language country lab h

/-- Witness for C8: the label "house_number" produced in the concrete
scenario belongs to the closed label set. -/
theorem c8_label_set_closed_witness :
    "house_number" ∈ all_address_parser_labels :=
  c8_label_set_closed.2.2.2.2 ex_model ex_tokens "en" "us" "house_number" (by decide)

/-- Zipping the first and second projections of a pair list restores the
list. -/
theorem zip_fst_snd_of_pairs {α β : Type} :
    ∀ l : List (α × β), (l.map Prod.fst).zip (l.map Prod.snd) = l
  | [] => rfl
  | (a, b) :: rest => by
    simp [zip_fst_snd_of_pairs rest]

/-- C10: every response successfully returned by `address_parser_parse`
keeps its two arrays parallel — the components and labels lists each
contain exactly `num_components` entries, and `labels[i]` is the label
name of `components[i]` for every `i`: zipping the two arrays gives back
exactly the grouped (component text, label) pairs of the parse, so a
caller iterating up to `num_components` never reads an invalid or
mismatched entry. -/
theorem c10_response_parallel (st : Option address_parser_t)
    (ts : tokenized_string_t) (language country : String)
    (r : address_parser_response_t)
    (h : address_parser_parse st ts language country = some r) :
    r.components.length = r.num_components ∧
    r.labels.length = r.num_components ∧
    ∃ parser, st = some parser ∧
      r.components.zip r.labels =
        group_components ts.tokens
          (ap_decode parser (address_parser_context_fill parser ts language country)
            ts.tokens.length) := by
  cases st with
  | none => simp [address_parser_parse] at h
  | some parser =>
    simp only [address_parser_parse, Option.some.injEq] at h
    subst h
    refine ⟨by simp [address_parser_parse_tokens, address_parser_response_of],
      by simp [address_parser_parse_tokens, address_parser_response_of],
      parser, rfl, ?_⟩
    simp only [address_parser_parse_tokens, address_parser_response_of]
    exact zip_fst_snd_of_pairs _

/-- Witness for C10 at the concrete scenario input. -/
theorem c10_response_parallel_witness :
    address_parser_parse (some ex_model) ex_tokens "en" "us" = some ex_response ∧
    (ex_response.components.length = ex_response.num_components ∧
     ex_response.labels.length = ex_response.num_components ∧
     ∃ parser, (some ex_model : Option address_parser_t) = some parser ∧
       ex_response.components.zip ex_response.labels =
         group_components ex_tokens.tokens
           (ap_decode parser (address_parser_context_fill parser ex_tokens "en" "us")
             ex_tokens.tokens.length)) :=
  ⟨by decide,
   c10_response_parallel (some ex_model) ex_tokens "en" "us" ex_response (by decide)⟩

end AddressParser
